import Mathlib

/-!
# interrogate — C# interface maker (`interfaceMakerCSharp.cxx`)

A shallow embedding of `InterfaceMakerCSharp`: the type mapper
`map_type_to_csharp`, the native prototype writer (`write_prototypes`,
`write_prototype_for`, `write_function_header`), the P/Invoke declaration
writer (`write_csharp_pinvoke_declaration`) and the function definition writer
(`write_functions`, `write_function_for`, `write_function_instance`).

Conventions of the embedding

* A value of type `CPPType *` is a `CPPTypePtr`: `nullptr` or `ptr node`.
* A `std::ostream` is the `String` written so far; every writer takes the
  stream and returns it extended.
* Dereferencing `nullptr` is a failure: a function that can do so returns an
  `Option`, and `none` is that failure.
* Code of the repository that is not part of `interfaceMakerCSharp.cxx`
  (the C++ type classes, `TypeManager`, `FunctionRemap` methods, the base class
  `InterfaceMaker`, the global toggles) is collected in the record `Env` and
  every definition is parametric in it.
-/

namespace Interrogate

mutual
/-- A node of the C++ type graph, as far as `interfaceMakerCSharp.cxx` inspects
it.  `as_const_type()`, `as_reference_type()` and `as_pointer_type()` return
the node itself on the matching constructor and `nullptr` on every other one.
`other` stands for every remaining subtype (simple, struct, enum, typedef,
function, array, ...), identified by its declaration. -/
inductive CPPType where
  | const_type (_wrapped_around : CPPTypePtr)
  | reference_type (_pointing_at : CPPTypePtr)
  | pointer_type (_pointing_at : CPPTypePtr)
  | other (decl : String)
/-- A value of type `CPPType *`: `nullptr`, or the address of a node. -/
inductive CPPTypePtr where
  | nullptr
  | ptr (node : CPPType)
end

/-- One entry of `FunctionRemap::_parameters`; `_remap` holds the result of
`_remap->get_new_type()`, which the writers dereference unconditionally. -/
structure Parameter where
  _remap : CPPType

/-- The fields of `FunctionRemap` read by the interface maker.  `_return_type`
holds the result of `_return_type->get_new_type()`. -/
structure FunctionRemap where
  _extension : Bool
  _flags : Nat
  _void_return : Bool
  _return_type : CPPType
  _wrapper_name : String
  _parameters : List Parameter
  _num_default_parameters : Nat

/-- The part of `InterfaceMaker::Function` read here. -/
structure Function where
  _remaps : List FunctionRemap

/-- `FunctionsByIndex`, listed in iteration order (key, function). -/
abbrev FunctionsByIndex := List (Nat × Function)

/-- Everything `interfaceMakerCSharp.cxx` uses but does not define. -/
structure Env where
  /-- `CPPType::get_local_name(&parser)`. -/
  get_local_name : CPPType → String
  /-- The text `CPPType::output_instance(out, name, &parser)` writes. -/
  output_instance : CPPType → String → String
  /-- `TypeManager::is_char`. -/
  is_char : CPPTypePtr → Bool
  /-- `FunctionRemap::get_parameter_name`. -/
  get_parameter_name : FunctionRemap → Nat → String
  /-- The enumerator `FunctionRemap::F_explicit_self`. -/
  F_explicit_self : Nat
  /-- The global toggle `output_function_names`. -/
  output_function_names : Bool
  /-- The global toggle `generate_spam`. -/
  generate_spam : Bool
  /-- The text `FunctionRemap::write_orig_prototype(out, 0, false, n)` writes. -/
  write_orig_prototype : FunctionRemap → Nat → String
  /-- The text `InterfaceMaker::write_spam_message(out, remap)` writes. -/
  write_spam_message : FunctionRemap → String
  /-- `FunctionRemap::call_function(out, 2, true, container)`: the text it
  writes and the expression it returns. -/
  call_function : FunctionRemap → String → String × String
  /-- `InterfaceMaker::manage_return_value(out, 2, remap, expr)`: the text it
  writes and the expression it returns. -/
  manage_return_value : FunctionRemap → String → String × String
  /-- `InterfaceMaker::write_prototypes(out, out_h)`: the text it writes to
  `out` and to `out_h`, given whether `out_h` is present. -/
  base_write_prototypes : Bool → String × String
  /-- The text `InterfaceMaker::write_functions(out)` writes. -/
  base_write_functions : String

/-- The loop `while (unwrapped != nullptr) { ... }` of `map_type_to_csharp`:
a const wrapper continues with `_wrapped_around`, a reference wrapper with
`_pointing_at`, anything else breaks; `nullptr` leaves the loop. -/
def unwrap_loop : CPPTypePtr → CPPTypePtr
  | .nullptr => .nullptr
  | .ptr (.const_type w) => unwrap_loop w
  | .ptr (.reference_type p) => unwrap_loop p
  | .ptr (.pointer_type p) => .ptr (.pointer_type p)
  | .ptr (.other d) => .ptr (.other d)

/-- The chain of string comparisons of `map_type_to_csharp`, with its final
default. -/
def map_type_name (type_name : String) : String :=
  if type_name = "void" then "void"
  else if type_name = "bool" then "bool"
  else if type_name = "char" then "byte"
  else if type_name = "signed char" then "sbyte"
  else if type_name = "unsigned char" then "byte"
  else if type_name = "short" ∨ type_name = "short int" then "short"
  else if type_name = "unsigned short" ∨ type_name = "unsigned short int" then "ushort"
  else if type_name = "int" then "int"
  else if type_name = "unsigned int" then "uint"
  else if type_name = "long" ∨ type_name = "long int" then "int"
  else if type_name = "unsigned long" ∨ type_name = "unsigned long int" then "uint"
  else if type_name = "long long" ∨ type_name = "long long int" then "long"
  else if type_name = "unsigned long long" ∨ type_name = "unsigned long long int" then "ulong"
  else if type_name = "float" then "float"
  else if type_name = "double" then "double"
  else if type_name = "size_t" then "UIntPtr"
  else if type_name = "ptrdiff_t" then "IntPtr"
  else "IntPtr"

/-- `InterfaceMakerCSharp::map_type_to_csharp`.  The result is `none` when the
call dereferences `nullptr` (`unwrapped->as_pointer_type()` after the loop
ended on `nullptr`). -/
def map_type_to_csharp (env : Env) (cpptype : CPPTypePtr) (_is_return : Bool) :
    Option String :=
  match cpptype with
  | .nullptr => some "void"
  | .ptr _ =>
    match unwrap_loop cpptype with
    | .nullptr => none
    | .ptr (.pointer_type pointed_at) =>
      if env.is_char pointed_at then some "IntPtr" else some "IntPtr"
    | .ptr unwrapped => some (map_type_name (env.get_local_name unwrapped))

/-- The loop `while (pn < size)` of `write_function_header`, run for at most
`fuel` iterations from index `pn`. -/
def write_function_header_loop (env : Env) (remap : FunctionRemap) :
    Nat → Nat → String → String
  | 0, _, out => out
  | fuel + 1, pn, out =>
    if h : pn < remap._parameters.length then
      write_function_header_loop env remap fuel (pn + 1)
        (out ++ ", " ++
          env.output_instance (remap._parameters.get ⟨pn, h⟩)._remap
            (env.get_parameter_name remap pn))
    else out

/-- `InterfaceMakerCSharp::write_function_header`. -/
def write_function_header (env : Env) (out : String) (_func : Function)
    (remap : FunctionRemap) (newline : Bool) : String :=
  let out := if remap._void_return then out ++ "void"
    else out ++ env.get_local_name remap._return_type
  let out := if newline then out ++ "\n" else out ++ " "
  let out := out ++ remap._wrapper_name ++ "("
  let pn := 0
  let out :=
    if h : pn < remap._parameters.length then
      let out := out ++
        env.output_instance (remap._parameters.get ⟨pn, h⟩)._remap
          (env.get_parameter_name remap pn)
      write_function_header_loop env remap remap._parameters.length (pn + 1) out
    else out
  out ++ ")"

/-- `InterfaceMakerCSharp::write_prototype_for`. -/
def write_prototype_for (env : Env) (out : String) (func : Function) : String :=
  func._remaps.foldl (fun out remap =>
    if remap._extension || (remap._flags &&& env.F_explicit_self != 0) then out
    else
      let out := if env.output_function_names then out ++ "EXPORT_FUNC " else out
      let out := write_function_header env out func remap false
      out ++ ";\n") out

/-- The loop `while (pn < size)` of `write_csharp_pinvoke_declaration`, run for
at most `fuel` iterations from index `pn`. -/
def write_csharp_pinvoke_declaration_loop (env : Env) (remap : FunctionRemap) :
    Nat → Nat → String → Option String
  | 0, _, out => some out
  | fuel + 1, pn, out =>
    if h : pn < remap._parameters.length then
      match map_type_to_csharp env (.ptr (remap._parameters.get ⟨pn, h⟩)._remap) false with
      | none => none
      | some param_type =>
        write_csharp_pinvoke_declaration_loop env remap fuel (pn + 1)
          (out ++ ", " ++ param_type ++ " " ++ env.get_parameter_name remap pn)
    else some out

/-- `InterfaceMakerCSharp::write_csharp_pinvoke_declaration`; `none` when a
call of `map_type_to_csharp` fails. -/
def write_csharp_pinvoke_declaration (env : Env) (out : String) (_func : Function)
    (remap : FunctionRemap) : Option String :=
  let out := out ++ "    [DllImport(DllName, CallingConvention = CallingConvention.Cdecl)]\n"
  match (if remap._void_return then some "void"
      else map_type_to_csharp env (.ptr remap._return_type) true) with
  | none => none
  | some return_type =>
    let out := out ++ "    internal static extern " ++ return_type ++ " " ++
      remap._wrapper_name ++ "("
    let pn := 0
    let out : Option String :=
      if h : pn < remap._parameters.length then
        match map_type_to_csharp env (.ptr (remap._parameters.get ⟨pn, h⟩)._remap) false with
        | none => none
        | some param_type =>
          write_csharp_pinvoke_declaration_loop env remap remap._parameters.length (pn + 1)
            (out ++ param_type ++ " " ++ env.get_parameter_name remap pn)
      else some out
    match out with
    | none => none
    | some out => some (out ++ ");\n\n")

/-- `InterfaceMakerCSharp::write_prototypes`: both streams after the call;
`none` when a P/Invoke declaration fails. -/
def write_prototypes (env : Env) (_functions : FunctionsByIndex) (out : String)
    (out_h : Option String) : Option (String × Option String) :=
  let out := out ++
    ("#if __GNUC__ >= 4\n" ++
     "#define EXPORT_FUNC extern \"C\" __attribute__((used, visibility(\"default\")))\n" ++
     "#elif defined(_MSC_VER)\n" ++
     "#define EXPORT_FUNC extern \"C\" __declspec(dllexport)\n" ++
     "#else\n" ++
     "#define EXPORT_FUNC extern \"C\"\n" ++
     "#endif\n\n")
  let out := _functions.foldl (fun out fi => write_prototype_for env out fi.2) out
  let out_h : Option (Option String) :=
    match out_h with
    | none => some none
    | some out_h =>
      let out_h := out_h ++ "using System;\n"
      let out_h := out_h ++ "using System.Runtime.InteropServices;\n\n"
      let out_h := out_h ++ "namespace Panda3D\n"
      let out_h := out_h ++ "\x7b\n"
      let out_h := out_h ++ "  internal static class NativeMethods\n"
      let out_h := out_h ++ "  \x7b\n"
      let out_h := out_h ++ "    private const string DllName = \"libinterrogate\";\n\n"
      let out_h := _functions.foldlM (fun out_h fi =>
        fi.2._remaps.foldlM (fun out_h remap =>
          if remap._extension || (remap._flags &&& env.F_explicit_self != 0) then some out_h
          else write_csharp_pinvoke_declaration env out_h fi.2 remap) out_h) out_h
      match out_h with
      | none => none
      | some out_h =>
        let out_h := out_h ++ "  \x7d\n"
        let out_h := out_h ++ "\x7d\n"
        some (some out_h)
  match out_h with
  | none => none
  | some out_h =>
    let out := out ++ "\n"
    let w := env.base_write_prototypes out_h.isSome
    some (out ++ w.1, out_h.map (fun h => h ++ w.2))

/-- `InterfaceMakerCSharp::write_function_instance`. -/
def write_function_instance (env : Env) (out : String) (func : Function)
    (remap : FunctionRemap) : String :=
  if remap._extension || (remap._flags &&& env.F_explicit_self != 0) then out
  else
    let out := out ++ "/*\n" ++ " * C# wrapper for\n" ++ " * "
    let out := out ++ env.write_orig_prototype remap remap._num_default_parameters
    let out := out ++ "\n" ++ " */\n"
    let out := if !env.output_function_names then out ++ "static " else out
    let out := write_function_header env out func remap true
    let out := out ++ " \x7b\n"
    let out := if env.generate_spam then out ++ env.write_spam_message remap else out
    let called := env.call_function remap "param0"
    let out := out ++ called.1
    let return_expr := called.2
    let managed := env.manage_return_value remap return_expr
    let out := out ++ managed.1
    let return_expr := managed.2
    let out := if return_expr ≠ "" then out ++ "  return " ++ return_expr ++ ";\n" else out
    out ++ "\x7d\n\n"

/-- `InterfaceMakerCSharp::write_function_for`. -/
def write_function_for (env : Env) (out : String) (func : Function) : String :=
  func._remaps.foldl (fun out remap => write_function_instance env out func remap) out

/-- `InterfaceMakerCSharp::write_functions`. -/
def write_functions (env : Env) (_functions : FunctionsByIndex) (out : String) : String :=
  let out := _functions.foldl (fun out fi => write_function_for env out fi.2) out
  out ++ env.base_write_functions

/-! ## Vocabulary of the statements -/

/-- The names compared against in `map_type_to_csharp`, in source order. -/
def primitive_table : List String :=
  ["void", "bool", "char", "signed char", "unsigned char", "short", "short int",
   "unsigned short", "unsigned short int", "int", "unsigned int", "long", "long int",
   "unsigned long", "unsigned long int", "long long", "long long int",
   "unsigned long long", "unsigned long long int", "float", "double", "size_t",
   "ptrdiff_t"]

/-- The C# type names that may cross the boundary. -/
def boundary_vocabulary : List String :=
  ["void", "bool", "byte", "sbyte", "short", "ushort", "int", "uint", "long", "ulong",
   "float", "double", "UIntPtr", "IntPtr"]

/-- The eligibility predicate of the naming and filtering policy:
not extension and not explicit receiver. -/
def is_eligible (env : Env) (remap : FunctionRemap) : Bool :=
  !remap._extension && !(remap._flags &&& env.F_explicit_self != 0)

/-- The generated names of the parameters of a variant, in order. -/
def parameter_names (env : Env) (remap : FunctionRemap) : List String :=
  (List.range remap._parameters.length).map (env.get_parameter_name remap)

/-- The return type of the native header: `void`, or the local name of the
return type. -/
def native_return_type (env : Env) (remap : FunctionRemap) : String :=
  if remap._void_return then "void" else env.get_local_name remap._return_type

/-- The parameter renderings of the native header, in order: what
`output_instance` writes for each parameter type and generated name. -/
def native_parameters (env : Env) (remap : FunctionRemap) : List String :=
  List.zipWith (fun p name => env.output_instance p._remap name)
    remap._parameters (parameter_names env remap)

/-- The native header: return type, separator, wrapper name and the
comma-joined parameter list in parentheses. -/
def native_header (env : Env) (remap : FunctionRemap) (newline : Bool) : String :=
  native_return_type env remap ++ (if newline then "\n" else " ") ++
    remap._wrapper_name ++ "(" ++ ", ".intercalate (native_parameters env remap) ++ ")"

/-- The native prototype line of a variant. -/
def prototype_line (env : Env) (remap : FunctionRemap) : String :=
  (if env.output_function_names then "EXPORT_FUNC " else "") ++
    native_header env remap false ++ ";\n"

/-- The return type of the foreign declaration: `void`, or the mapped return
type. -/
def foreign_return_type (env : Env) (remap : FunctionRemap) : Option String :=
  if remap._void_return then some "void"
  else map_type_to_csharp env (.ptr remap._return_type) true

/-- The mapped parameter types of the foreign declaration, in order. -/
def foreign_parameter_types (env : Env) (remap : FunctionRemap) : Option (List String) :=
  remap._parameters.mapM (fun p => map_type_to_csharp env (.ptr p._remap) false)

/-- The text of a foreign declaration with the given return type, wrapper name,
parameter types and parameter names. -/
def foreign_declaration_text (return_type wrapper_name : String)
    (types names : List String) : String :=
  "    [DllImport(DllName, CallingConvention = CallingConvention.Cdecl)]\n" ++
    "    internal static extern " ++ return_type ++ " " ++ wrapper_name ++ "(" ++
    ", ".intercalate (List.zipWith (fun ty name => ty ++ " " ++ name) types names) ++
    ");\n\n"

/-- The foreign declaration of a variant; `none` when a type cannot be mapped. -/
def foreign_declaration (env : Env) (remap : FunctionRemap) : Option String :=
  match foreign_return_type env remap, foreign_parameter_types env remap with
  | some return_type, some types =>
    some (foreign_declaration_text return_type remap._wrapper_name types
      (parameter_names env remap))
  | _, _ => none

/-- The eligible variants of a catalog, in iteration order: functions in
order, variants of a function in order. -/
def eligible_remaps (env : Env) (_functions : FunctionsByIndex) : List FunctionRemap :=
  _functions.flatMap (fun fi => fi.2._remaps.filter (is_eligible env))

/-- The block defining `EXPORT_FUNC` that opens the native prototypes. -/
def export_block : String :=
  "#if __GNUC__ >= 4\n" ++
  "#define EXPORT_FUNC extern \"C\" __attribute__((used, visibility(\"default\")))\n" ++
  "#elif defined(_MSC_VER)\n" ++
  "#define EXPORT_FUNC extern \"C\" __declspec(dllexport)\n" ++
  "#else\n" ++
  "#define EXPORT_FUNC extern \"C\"\n" ++
  "#endif\n\n"

/-- The text that opens the foreign artifact. -/
def foreign_opening : String :=
  "using System;\n" ++ "using System.Runtime.InteropServices;\n\n" ++
  "namespace Panda3D\n" ++ "\x7b\n" ++ "  internal static class NativeMethods\n" ++
  "  \x7b\n" ++ "    private const string DllName = \"libinterrogate\";\n\n"

/-- The text that closes the foreign artifact. -/
def foreign_closing : String :=
  "  \x7d\n" ++ "\x7d\n"

/-! ## A sample environment, for concrete instances -/

/-- A display form for types: the declaration of an `other` node, `const `
before a const wrapper, `&` after a reference, `*` after a pointer. -/
def sample_display : CPPTypePtr → String
  | .nullptr => ""
  | .ptr (.other d) => d
  | .ptr (.const_type t) => "const " ++ sample_display t
  | .ptr (.reference_type t) => sample_display t ++ "&"
  | .ptr (.pointer_type t) => sample_display t ++ "*"

/-- A sample environment: types display as `sample_display` shows them,
parameters are named `param0`, `param1`, ... -/
def sample_env : Env where
  get_local_name := fun t => sample_display (.ptr t)
  output_instance := fun t name => sample_display (.ptr t) ++ " " ++ name
  is_char := fun t => match t with
    | .ptr (.other d) => d == "char"
    | _ => false
  get_parameter_name := fun _ n => "param" ++ toString n
  F_explicit_self := 0x200
  output_function_names := true
  generate_spam := false
  write_orig_prototype := fun r _ => r._wrapper_name
  write_spam_message := fun _ => ""
  call_function := fun r container => ("", "(" ++ container ++ ")." ++ r._wrapper_name ++ "()")
  manage_return_value := fun _ e => ("", e)
  base_write_prototypes := fun _ => ("", "")
  base_write_functions := ""

/-- The worked example: `unsigned long long f(const int&)`. -/
def sample_remap : FunctionRemap where
  _extension := false
  _flags := 0
  _void_return := false
  _return_type := .other "unsigned long long"
  _wrapper_name := "_inCS_f"
  _parameters := [⟨.reference_type (.ptr (.const_type (.ptr (.other "int"))))⟩]
  _num_default_parameters := 0

/-- A sample catalog: one function with the worked example, an extension
variant, an explicit-self variant and a void variant without parameters, and a
second function with a variant taking `char*`. -/
def sample_catalog : FunctionsByIndex :=
  [(3, ⟨[sample_remap,
         { sample_remap with _extension := true, _wrapper_name := "_inCS_ext" },
         { sample_remap with _flags := 0x201, _wrapper_name := "_inCS_self" },
         { sample_remap with _void_return := true, _parameters := [],
                             _wrapper_name := "_inCS_g" }]⟩),
   (7, ⟨[{ sample_remap with _return_type := .other "TypeHandle",
                             _parameters := [⟨.pointer_type (.ptr (.other "char"))⟩,
                                             ⟨.other "double"⟩],
                             _wrapper_name := "_inCS_h" }]⟩)]

/-- One pass through the body of the loop `while (unwrapped != nullptr)` of
`map_type_to_csharp`: `some next` when the pass ends in `continue` with
`unwrapped = next` (a const wrapper gives `_wrapped_around`, a reference
wrapper `_pointing_at`), `none` when the loop is left, by the guard on
`nullptr` or by `break`. -/
def unwrap_step : CPPTypePtr → Option CPPTypePtr
  | .nullptr => none
  | .ptr (.const_type w) => some w
  | .ptr (.reference_type p) => some p
  | .ptr (.pointer_type _) => none
  | .ptr (.other _) => none

/-- The loop of `map_type_to_csharp` run for at most `fuel` passes: the value
of `unwrapped` when the loop is left and the number of passes that stripped a
wrapper; `none` when the fuel runs out first. -/
def unwrap_run : Nat → CPPTypePtr → Option (CPPTypePtr × Nat)
  | 0, _ => none
  | fuel + 1, unwrapped =>
    match unwrap_step unwrapped with
    | none => some (unwrapped, 0)
    | some next => (unwrap_run fuel next).map (fun r => (r.1, r.2 + 1))

/-- The number of leading const and reference wrappers of a type. -/
def leading_wrappers : CPPTypePtr → Nat
  | .nullptr => 0
  | .ptr (.const_type w) => leading_wrappers w + 1
  | .ptr (.reference_type p) => leading_wrappers p + 1
  | .ptr (.pointer_type _) => 0
  | .ptr (.other _) => 0

/-- A qualifier layer: const-of or reference-to. -/
inductive Qualifier where
  | const_of
  | reference_to

/-- The type obtained by putting a stack of qualifier layers around a type,
the head of the list outermost. -/
def apply_qualifiers : List Qualifier → CPPType → CPPType
  | [], T => T
  | .const_of :: qs, T => .const_type (.ptr (apply_qualifiers qs T))
  | .reference_to :: qs, T => .reference_type (.ptr (apply_qualifiers qs T))

/-! ## The function definitions, in closed form -/

/-- The comment `write_function_instance` puts above a definition. -/
def function_comment (env : Env) (remap : FunctionRemap) : String :=
  "/*\n" ++ " * C# wrapper for\n" ++ " * " ++
    env.write_orig_prototype remap remap._num_default_parameters ++ "\n" ++ " */\n"

/-- The linkage marker before the header of a definition: `static ` when
function names are not output, nothing otherwise. -/
def linkage_marker (env : Env) : String :=
  if env.output_function_names then "" else "static "

/-- The expression obtained from the call emitter with call target `param0`
and then passed through `manage_return_value`. -/
def managed_return_expression (env : Env) (remap : FunctionRemap) : String :=
  (env.manage_return_value remap (env.call_function remap "param0").2).2

/-- The text written inside the braces before the return statement: the spam
message when enabled, and what the call emitter and `manage_return_value`
write themselves. -/
def body_before_return (env : Env) (remap : FunctionRemap) : String :=
  (if env.generate_spam then env.write_spam_message remap else "") ++
    (env.call_function remap "param0").1 ++
    (env.manage_return_value remap (env.call_function remap "param0").2).1

/-- The return statement of a definition: absent when the managed expression
is empty. -/
def return_statement (env : Env) (remap : FunctionRemap) : String :=
  if managed_return_expression env remap = "" then ""
  else "  return " ++ managed_return_expression env remap ++ ";\n"

/-- The definition of the wrapper of a variant. -/
def function_definition (env : Env) (remap : FunctionRemap) : String :=
  function_comment env remap ++ linkage_marker env ++ native_header env remap true ++
    " \x7b\n" ++ body_before_return env remap ++ return_statement env remap ++ "\x7d\n\n"

/-- All variants of a catalog, in iteration order. -/
def all_remaps (_functions : FunctionsByIndex) : List FunctionRemap :=
  _functions.flatMap (fun fi => fi.2._remaps)

/-! ## The type mapper -/

/-- A property of both branches holds of the conditional. -/
theorem ite_induct {P : String → Prop} {c : Prop} [Decidable c] {a b : String}
    (ha : P a) (hb : P b) : P (if c then a else b) := by
  split <;> assumption

theorem map_type_name_mem_vocabulary (n : String) :
    map_type_name n ∈ boundary_vocabulary := by
  unfold map_type_name
  repeat (refine ite_induct (P := fun s => s ∈ boundary_vocabulary) (by decide) ?_)
  decide

theorem map_type_name_ne_empty (n : String) : map_type_name n ≠ "" := by
  unfold map_type_name
  repeat (refine ite_induct (P := fun s => s ≠ "") (by decide) ?_)
  decide

theorem map_type_name_fallback (n : String) (h : n ∉ primitive_table) :
    map_type_name n = "IntPtr" := by
  simp only [primitive_table, List.mem_cons, List.mem_singleton, List.not_mem_nil,
    not_or, or_false] at h
  unfold map_type_name
  simp only [h, if_false, or_self]

/-- The unwrap loop never stops on a const or reference wrapper. -/
theorem unwrap_loop_stops : (p : CPPTypePtr) → (u : CPPType) → unwrap_loop p = .ptr u →
    (∃ q, u = .pointer_type q) ∨ (∃ d, u = .other d)
  | .nullptr, u, h => by simp [unwrap_loop] at h
  | .ptr (.const_type w), u, h => by
    rw [unwrap_loop] at h
    exact unwrap_loop_stops w u h
  | .ptr (.reference_type w), u, h => by
    rw [unwrap_loop] at h
    exact unwrap_loop_stops w u h
  | .ptr (.pointer_type q), u, h => by
    simp only [unwrap_loop, CPPTypePtr.ptr.injEq] at h
    exact Or.inl ⟨q, h.symm⟩
  | .ptr (.other d), u, h => by
    simp only [unwrap_loop, CPPTypePtr.ptr.injEq] at h
    exact Or.inr ⟨d, h.symm⟩

/-- What `map_type_to_csharp` returns on a present type, by the node the unwrap
loop stops at. -/
theorem map_type_to_csharp_ptr (env : Env) (t : CPPType) (r : Bool) :
    map_type_to_csharp env (.ptr t) r =
      match unwrap_loop (.ptr t) with
      | .nullptr => none
      | .ptr (.pointer_type _) => some "IntPtr"
      | .ptr u => some (map_type_name (env.get_local_name u)) := by
  unfold map_type_to_csharp
  simp only []
  split <;> simp_all

/-- Every name `map_type_to_csharp` returns is in the boundary vocabulary. -/
theorem map_type_to_csharp_mem_vocabulary (env : Env) (t : CPPTypePtr) (r : Bool)
    (s : String) (h : map_type_to_csharp env t r = some s) : s ∈ boundary_vocabulary := by
  cases t with
  | nullptr =>
    simp only [map_type_to_csharp, Option.some.injEq] at h
    subst h; decide
  | ptr n =>
    rw [map_type_to_csharp_ptr] at h
    split at h
    · exact absurd h (by simp)
    · simp only [Option.some.injEq] at h
      subst h; decide
    · simp only [Option.some.injEq] at h
      subst h; exact map_type_name_mem_vocabulary _

/-- Every name `map_type_to_csharp` returns is non-empty. -/
theorem map_type_to_csharp_ne_empty (env : Env) (t : CPPTypePtr) (r : Bool)
    (s : String) (h : map_type_to_csharp env t r = some s) : s ≠ "" := by
  cases t with
  | nullptr =>
    simp only [map_type_to_csharp, Option.some.injEq] at h
    subst h; decide
  | ptr n =>
    rw [map_type_to_csharp_ptr] at h
    split at h
    · exact absurd h (by simp)
    · simp only [Option.some.injEq] at h
      subst h; decide
    · simp only [Option.some.injEq] at h
      subst h; exact map_type_name_ne_empty _

/-- The call fails exactly when the type is present and the unwrap loop ends on
`nullptr`. -/
theorem map_type_to_csharp_eq_none (env : Env) (t : CPPTypePtr) (r : Bool) :
    map_type_to_csharp env t r = none ↔ (∃ n, t = .ptr n) ∧ unwrap_loop t = .nullptr := by
  cases t with
  | nullptr => simp [map_type_to_csharp]
  | ptr n =>
    rw [map_type_to_csharp_ptr]
    split <;> simp_all

/-- C1, at the failing input: on a const wrapper, and on a reference wrapper,
whose wrapped type is absent, the unwrap loop of `map_type_to_csharp` ends on
`nullptr`, which the call then dereferences: it fails and returns no name. -/
theorem map_type_to_csharp_absent_wrapped_fails (env : Env) (is_return : Bool) :
    map_type_to_csharp env (.ptr (.const_type .nullptr)) is_return = none ∧
    map_type_to_csharp env (.ptr (.reference_type .nullptr)) is_return = none :=
  ⟨rfl, rfl⟩

/-- C2: for every pointee, absent or present, `map_type_to_csharp` maps the
pointer to it to exactly `IntPtr`, hence never to `string`. -/
theorem pointer_maps_to_intptr (env : Env) (pointee : CPPTypePtr) (is_return : Bool) :
    map_type_to_csharp env (.ptr (.pointer_type pointee)) is_return = some "IntPtr" ∧
    map_type_to_csharp env (.ptr (.pointer_type pointee)) is_return ≠ some "string" := by
  have h : map_type_to_csharp env (.ptr (.pointer_type pointee)) is_return = some "IntPtr" := by
    simp [map_type_to_csharp, unwrap_loop]
  rw [h]
  exact ⟨rfl, by decide⟩

/-- C3: for every type `T` that is neither wrapper nor pointer, primitives
included, `map_type_to_csharp` returns a name on `const T&`, the reference to
the const wrapper of `T`, and returns the same name on bare `T`: the name the
comparison chain gives to the local name of `T`, which is non-empty and in the
boundary vocabulary (`int` for `int`); and for every present type the results
on `const T&` and on `T` are equal. -/
theorem const_reference_maps_as_bare (env : Env) (d : String) (is_return : Bool) :
    (∃ s : String,
      map_type_to_csharp env
        (.ptr (.reference_type (.ptr (.const_type (.ptr (.other d)))))) is_return = some s ∧
      map_type_to_csharp env (.ptr (.other d)) is_return = some s ∧
      s = map_type_name (env.get_local_name (.other d)) ∧
      s ≠ "" ∧ s ∈ boundary_vocabulary) ∧
    map_type_name "int" = "int" ∧
    (∀ T : CPPType,
      map_type_to_csharp env (.ptr (.reference_type (.ptr (.const_type (.ptr T))))) is_return =
        map_type_to_csharp env (.ptr T) is_return) := by
  refine ⟨⟨map_type_name (env.get_local_name (.other d)), ?_, ?_, rfl,
    map_type_name_ne_empty _, map_type_name_mem_vocabulary _⟩, by decide, fun T => ?_⟩
  · simp only [map_type_to_csharp_ptr, unwrap_loop]
  · simp only [map_type_to_csharp_ptr, unwrap_loop]
  · simp only [map_type_to_csharp_ptr, unwrap_loop]

/-- C4: when the unwrap loop stops on a node that is not a pointer and whose
local name is not in the primitive table, `map_type_to_csharp` returns
`IntPtr`; every pointer type, such as `Foo*`, maps to the same name. -/
theorem unrecognised_name_maps_to_intptr (env : Env) (t u : CPPType) (is_return : Bool)
    (hu : unwrap_loop (.ptr t) = .ptr u) (hnp : ∀ q, u ≠ .pointer_type q)
    (hname : env.get_local_name u ∉ primitive_table) :
    map_type_to_csharp env (.ptr t) is_return = some "IntPtr" ∧
    ∀ foo : CPPTypePtr, map_type_to_csharp env (.ptr (.pointer_type foo)) is_return =
      map_type_to_csharp env (.ptr t) is_return := by
  have h : map_type_to_csharp env (.ptr t) is_return = some "IntPtr" := by
    rw [map_type_to_csharp_ptr, hu]
    split
    · rename_i heq; cases heq
    · rename_i q heq
      simp only [CPPTypePtr.ptr.injEq] at heq
      exact absurd heq (hnp _)
    · rename_i v _ heq
      simp only [CPPTypePtr.ptr.injEq] at heq
      subst heq
      rw [map_type_name_fallback _ hname]
  refine ⟨h, fun foo => ?_⟩
  rw [h]
  simp [map_type_to_csharp, unwrap_loop]

theorem unrecognised_name_maps_to_intptr_witness :
    unwrap_loop (.ptr (.const_type (.ptr (.other "TypeHandle")))) = .ptr (.other "TypeHandle") ∧
    sample_env.get_local_name (.other "TypeHandle") ∉ primitive_table ∧
    map_type_to_csharp sample_env (.ptr (.const_type (.ptr (.other "TypeHandle")))) false =
      some "IntPtr" ∧
    map_type_to_csharp sample_env (.ptr (.pointer_type (.ptr (.other "Foo")))) false =
      map_type_to_csharp sample_env (.ptr (.const_type (.ptr (.other "TypeHandle")))) false :=
  have h := unrecognised_name_maps_to_intptr sample_env
    (.const_type (.ptr (.other "TypeHandle"))) (.other "TypeHandle") false rfl
    (fun _ hq => by cases hq) (by decide)
  ⟨rfl, by decide, h.1, h.2 (.ptr (.other "Foo"))⟩

/-- C7, at the failing inputs: an `other` node whose local name is one of the
integer spellings `signed int`, `unsigned`, `signed short int`, `signed long`,
`signed long long int` matches no comparison of `map_type_to_csharp` and is
mapped to the default `IntPtr`, not to a sized integer name. -/
theorem signed_spellings_map_to_intptr (env : Env) (d : String) (is_return : Bool)
    (h : env.get_local_name (.other d) ∈
      ["signed int", "unsigned", "signed short int", "signed long", "signed long long int"]) :
    map_type_to_csharp env (.ptr (.other d)) is_return = some "IntPtr" := by
  have hn : env.get_local_name (.other d) ∉ primitive_table := by
    simp only [List.mem_cons, List.mem_singleton, List.not_mem_nil, or_false] at h
    rcases h with h | h | h | h | h <;> rw [h] <;> decide
  simp only [map_type_to_csharp_ptr, unwrap_loop]
  rw [map_type_name_fallback _ hn]

theorem signed_spellings_map_to_intptr_witness :
    map_type_to_csharp sample_env (.ptr (.other "signed int")) false = some "IntPtr" ∧
    map_type_to_csharp sample_env (.ptr (.other "unsigned")) true = some "IntPtr" :=
  ⟨signed_spellings_map_to_intptr sample_env "signed int" false (by decide),
   signed_spellings_map_to_intptr sample_env "unsigned" true (by decide)⟩

/-! ## Strings -/

theorem string_foldl_append (l : List String) (acc : String) :
    l.foldl (fun r s => r ++ s) acc = acc ++ String.join l := by
  induction l generalizing acc with
  | nil => simp [String.join]
  | cons a l ih =>
    simp only [List.foldl_cons, String.join]
    rw [ih, ih ("" ++ a)]
    simp [String.append_assoc]

theorem string_join_nil : String.join [] = "" := rfl

theorem string_join_cons (a : String) (l : List String) :
    String.join (a :: l) = a ++ String.join l := by
  simp only [String.join, List.foldl_cons]
  rw [string_foldl_append]
  simp [String.join]

theorem string_join_append (l₁ l₂ : List String) :
    String.join (l₁ ++ l₂) = String.join l₁ ++ String.join l₂ := by
  induction l₁ with
  | nil => simp [string_join_nil]
  | cons a l ih => simp [string_join_cons, ih, String.append_assoc]

theorem intercalate_go_eq (s : String) (l : List String) (acc : String) :
    String.intercalate.go acc s l = acc ++ String.join (l.map (fun a => s ++ a)) := by
  induction l generalizing acc with
  | nil => simp [String.intercalate.go, string_join_nil]
  | cons a l ih =>
    simp [String.intercalate.go, ih, string_join_cons, String.append_assoc]

theorem intercalate_cons (s a : String) (l : List String) :
    s.intercalate (a :: l) = a ++ String.join (l.map (fun b => s ++ b)) := by
  simp [String.intercalate, intercalate_go_eq]

/-! ## The native header -/

theorem parameter_names_length (env : Env) (remap : FunctionRemap) :
    (parameter_names env remap).length = remap._parameters.length := by
  simp [parameter_names]

theorem parameter_names_drop (env : Env) (remap : FunctionRemap) (pn : Nat)
    (h : pn < remap._parameters.length) :
    (parameter_names env remap).drop pn =
      env.get_parameter_name remap pn :: (parameter_names env remap).drop (pn + 1) := by
  have hn : pn < (parameter_names env remap).length := by
    rw [parameter_names_length]; exact h
  rw [List.drop_eq_getElem_cons hn]
  simp [parameter_names]

/-- The loop of `write_function_header`, given enough fuel, appends the
remaining parameters, each preceded by the separator. -/
theorem write_function_header_loop_eq (env : Env) (remap : FunctionRemap) :
    ∀ (fuel pn : Nat) (out : String), remap._parameters.length - pn ≤ fuel →
      write_function_header_loop env remap fuel pn out =
        out ++ String.join
          ((List.zipWith (fun p name => env.output_instance p._remap name)
            (remap._parameters.drop pn) ((parameter_names env remap).drop pn)).map
              (fun a => ", " ++ a)) := by
  intro fuel
  induction fuel with
  | zero =>
    intro pn out h
    have hle : remap._parameters.length ≤ pn := by omega
    simp [write_function_header_loop, List.drop_eq_nil_of_le hle, string_join_nil]
  | succ fuel ih =>
    intro pn out h
    unfold write_function_header_loop
    by_cases hlt : pn < remap._parameters.length
    · rw [dif_pos hlt, ih (pn + 1) _ (by omega), List.drop_eq_getElem_cons hlt,
        parameter_names_drop env remap pn hlt]
      simp only [List.zipWith_cons_cons, List.map_cons, string_join_cons,
        String.append_assoc, List.get_eq_getElem]
    · rw [dif_neg hlt]
      have hle : remap._parameters.length ≤ pn := by omega
      simp [List.drop_eq_nil_of_le hle, string_join_nil]

/-- `write_function_header` appends the native header to the stream. -/
theorem write_function_header_eq (env : Env) (out : String) (func : Function)
    (remap : FunctionRemap) (newline : Bool) :
    write_function_header env out func remap newline =
      out ++ native_header env remap newline := by
  unfold write_function_header native_header native_return_type native_parameters
  by_cases hlt : 0 < remap._parameters.length
  · simp only [dif_pos hlt]
    rw [write_function_header_loop_eq env remap _ 1 _ (by omega)]
    have hp := List.drop_eq_getElem_cons hlt
    have hn := parameter_names_drop env remap 0 hlt
    simp only [List.drop_zero] at hp hn
    conv_rhs => rw [hp, hn]
    simp only [List.zipWith_cons_cons, intercalate_cons, List.get_eq_getElem]
    cases remap._void_return <;> cases newline <;> simp [String.append_assoc]
  · simp only [dif_neg hlt]
    have hnil : remap._parameters = [] := List.length_eq_zero.mp (by omega)
    simp only [hnil, List.zipWith_nil_left, String.intercalate]
    cases remap._void_return <;> cases newline <;> simp [String.append_assoc]

theorem is_eligible_eq (env : Env) (remap : FunctionRemap) :
    (remap._extension || (remap._flags &&& env.F_explicit_self != 0)) =
      !is_eligible env remap := by
  unfold is_eligible
  cases remap._extension <;> cases (remap._flags &&& env.F_explicit_self != 0) <;> rfl

/-- The loop of `write_prototype_for` appends the prototype lines of the
eligible variants, in order. -/
theorem write_prototype_for_eq (env : Env) (out : String) (func : Function) :
    write_prototype_for env out func =
      out ++ String.join ((func._remaps.filter (is_eligible env)).map (prototype_line env)) := by
  unfold write_prototype_for
  generalize func._remaps = remaps
  induction remaps generalizing out with
  | nil => simp [string_join_nil]
  | cons r rs ih =>
    rw [List.foldl_cons, ih, is_eligible_eq]
    cases he : is_eligible env r
    · simp [List.filter_cons, he]
    · simp only [List.filter_cons, he, Bool.not_true, Bool.false_eq_true, if_false, if_true,
        List.map_cons, string_join_cons, write_function_header_eq, prototype_line]
      cases env.output_function_names <;> simp [String.append_assoc]

/-- The loop over the catalog in `write_prototypes` appends the prototype lines
of the eligible variants of the catalog, in iteration order. -/
theorem write_prototype_for_catalog_eq (env : Env) (fns : FunctionsByIndex) (out : String) :
    fns.foldl (fun out fi => write_prototype_for env out fi.2) out =
      out ++ String.join ((eligible_remaps env fns).map (prototype_line env)) := by
  unfold eligible_remaps
  induction fns generalizing out with
  | nil => simp [string_join_nil]
  | cons fi fns ih =>
    rw [List.foldl_cons, ih, write_prototype_for_eq]
    simp [string_join_append, String.append_assoc]

/-! ## The foreign declaration -/

theorem option_mapM_nil {α β : Type} (f : α → Option β) :
    ([] : List α).mapM f = some [] := rfl

theorem option_mapM_cons {α β : Type} (f : α → Option β) (a : α) (l : List α) :
    (a :: l).mapM f =
      match f a with
      | none => none
      | some b => (l.mapM f).map (fun bs => b :: bs) := by
  rw [List.mapM_cons]
  cases f a with
  | none => rfl
  | some b =>
    cases l.mapM f with
    | none => rfl
    | some bs => rfl

/-- The loop of `write_csharp_pinvoke_declaration`, given enough fuel, appends
the remaining parameters, each preceded by the separator, and fails when a
parameter type cannot be mapped. -/
theorem write_csharp_pinvoke_declaration_loop_eq (env : Env) (remap : FunctionRemap) :
    ∀ (fuel pn : Nat) (out : String), remap._parameters.length - pn ≤ fuel →
      write_csharp_pinvoke_declaration_loop env remap fuel pn out =
        (((remap._parameters.drop pn).mapM
            (fun p => map_type_to_csharp env (.ptr p._remap) false)).map
          (fun types => out ++ String.join
            ((List.zipWith (fun ty name => ty ++ " " ++ name) types
              ((parameter_names env remap).drop pn)).map (fun a => ", " ++ a)))) := by
  intro fuel
  induction fuel with
  | zero =>
    intro pn out h
    have hle : remap._parameters.length ≤ pn := by omega
    simp only [write_csharp_pinvoke_declaration_loop, List.drop_eq_nil_of_le hle,
      option_mapM_nil, Option.map_some', List.zipWith_nil_left, List.map_nil, string_join_nil,
      String.append_empty]
  | succ fuel ih =>
    intro pn out h
    unfold write_csharp_pinvoke_declaration_loop
    by_cases hlt : pn < remap._parameters.length
    · rw [dif_pos hlt, List.drop_eq_getElem_cons hlt, parameter_names_drop env remap pn hlt,
        option_mapM_cons]
      simp only [List.get_eq_getElem]
      cases hm : map_type_to_csharp env (.ptr remap._parameters[pn]._remap) false with
      | none => rfl
      | some ty =>
        simp only [ih (pn + 1) _ (by omega)]
        cases hr : (remap._parameters.drop (pn + 1)).mapM
            (fun p => map_type_to_csharp env (.ptr p._remap) false) with
        | none => rfl
        | some tys =>
          simp only [Option.map_some', List.zipWith_cons_cons, List.map_cons, string_join_cons,
            String.append_assoc]
    · rw [dif_neg hlt]
      have hle : remap._parameters.length ≤ pn := by omega
      simp only [List.drop_eq_nil_of_le hle,
        option_mapM_nil, Option.map_some', List.zipWith_nil_left, List.map_nil, string_join_nil,
        String.append_empty]

/-- `write_csharp_pinvoke_declaration` appends the foreign declaration of the
variant to the stream, and fails when the declaration has an unmappable type. -/
theorem write_csharp_pinvoke_declaration_eq (env : Env) (out : String) (func : Function)
    (remap : FunctionRemap) :
    write_csharp_pinvoke_declaration env out func remap =
      (foreign_declaration env remap).map (fun d => out ++ d) := by
  unfold write_csharp_pinvoke_declaration foreign_declaration foreign_return_type
    foreign_parameter_types foreign_declaration_text
  simp only []
  cases hrt : (if remap._void_return then some "void"
      else map_type_to_csharp env (.ptr remap._return_type) true) with
  | none => rfl
  | some rt =>
    simp only []
    by_cases hlt : 0 < remap._parameters.length
    · simp only [dif_pos hlt, List.get_eq_getElem]
      have hp := List.drop_eq_getElem_cons hlt
      have hn := parameter_names_drop env remap 0 hlt
      simp only [List.drop_zero] at hp hn
      conv_rhs => rw [hp, hn]
      rw [option_mapM_cons]
      cases hm : map_type_to_csharp env (.ptr remap._parameters[0]._remap) false with
      | none => rfl
      | some ty =>
        simp only [write_csharp_pinvoke_declaration_loop_eq env remap
          remap._parameters.length (0 + 1) _ (by omega)]
        cases hr : (remap._parameters.drop (0 + 1)).mapM
            (fun p => map_type_to_csharp env (.ptr p._remap) false) with
        | none => rfl
        | some tys =>
          simp only [Option.map_some', List.zipWith_cons_cons, intercalate_cons,
            String.append_assoc]
    · simp only [dif_neg hlt]
      have hnil : remap._parameters = [] := List.length_eq_zero.mp (by omega)
      simp only [hnil, option_mapM_nil, Option.map_some', List.zipWith_nil_left,
        String.intercalate, String.append_assoc, String.empty_append]

theorem option_mapM_append {α β : Type} (f : α → Option β) (l₁ l₂ : List α) :
    (l₁ ++ l₂).mapM f =
      match l₁.mapM f with
      | none => none
      | some bs => (l₂.mapM f).map (fun cs => bs ++ cs) := by
  induction l₁ with
  | nil =>
    simp only [List.nil_append, option_mapM_nil]
    cases l₂.mapM f <;> rfl
  | cons a l ih =>
    rw [List.cons_append, option_mapM_cons, option_mapM_cons, ih]
    cases f a with
    | none => rfl
    | some b =>
      cases l.mapM f with
      | none => rfl
      | some bs => cases l₂.mapM f <;> rfl

theorem option_mapM_length {α β : Type} (f : α → Option β) :
    ∀ (l : List α) (bs : List β), l.mapM f = some bs → bs.length = l.length
  | [], bs, h => by
    rw [option_mapM_nil] at h
    cases h; rfl
  | a :: l, bs, h => by
    rw [option_mapM_cons] at h
    cases hf : f a with
    | none => rw [hf] at h; cases h
    | some b =>
      rw [hf] at h
      cases hl : l.mapM f with
      | none => rw [hl] at h; cases h
      | some cs =>
        rw [hl] at h
        cases h
        simp [option_mapM_length f l cs hl]

theorem option_mapM_getElem {α β : Type} (f : α → Option β) :
    ∀ (l : List α) (bs : List β), l.mapM f = some bs →
      ∀ (k : Nat) (a : α), l[k]? = some a → ∃ b, bs[k]? = some b ∧ f a = some b
  | [], bs, _, k, a, hk => by simp at hk
  | x :: l, bs, h, k, a, hk => by
    rw [option_mapM_cons] at h
    cases hf : f x with
    | none => rw [hf] at h; cases h
    | some b =>
      rw [hf] at h
      cases hl : l.mapM f with
      | none => rw [hl] at h; cases h
      | some cs =>
        rw [hl] at h
        cases h
        cases k with
        | zero =>
          simp only [List.getElem?_cons_zero, Option.some.injEq] at hk
          subst hk
          exact ⟨b, by simp, hf⟩
        | succ k =>
          simp only [List.getElem?_cons_succ] at hk
          obtain ⟨c, hc, hfc⟩ := option_mapM_getElem f l cs hl k a hk
          exact ⟨c, by simpa using hc, hfc⟩

theorem option_mapM_forall {α β : Type} (f : α → Option β) :
    ∀ (l : List α) (bs : List β), l.mapM f = some bs →
      ∀ b ∈ bs, ∃ a ∈ l, f a = some b
  | [], bs, h, b, hb => by
    rw [option_mapM_nil] at h
    cases h; simp at hb
  | x :: l, bs, h, b, hb => by
    rw [option_mapM_cons] at h
    cases hf : f x with
    | none => rw [hf] at h; cases h
    | some c =>
      rw [hf] at h
      cases hl : l.mapM f with
      | none => rw [hl] at h; cases h
      | some cs =>
        rw [hl] at h
        cases h
        rcases List.mem_cons.mp hb with hbc | hbc
        · exact ⟨x, by simp, by rw [hbc]; exact hf⟩
        · obtain ⟨a, ha, hfa⟩ := option_mapM_forall f l cs hl b hbc
          exact ⟨a, by simp [ha], hfa⟩

/-- The loop over the variants of one function in `write_prototypes` appends
the foreign declarations of its eligible variants, in order. -/
theorem foreign_loop_remaps_eq (env : Env) (func : Function) (remaps : List FunctionRemap)
    (h : String) :
    remaps.foldlM (fun out_h remap =>
        if remap._extension || (remap._flags &&& env.F_explicit_self != 0) then some out_h
        else write_csharp_pinvoke_declaration env out_h func remap) h =
      ((remaps.filter (is_eligible env)).mapM (foreign_declaration env)).map
        (fun ds => h ++ String.join ds) := by
  simp only [write_csharp_pinvoke_declaration_eq, is_eligible_eq]
  induction remaps generalizing h with
  | nil =>
    simp only [List.foldlM_nil, List.filter_nil, option_mapM_nil, Option.map_some',
      string_join_nil, String.append_empty]
    rfl
  | cons r rs ih =>
    rw [List.foldlM_cons]
    cases he : is_eligible env r
    · simp only [Bool.not_false, if_true, List.filter_cons, he, Bool.false_eq_true, if_false]
      exact ih h
    · simp only [Bool.not_true, Bool.false_eq_true, if_false, List.filter_cons, he, if_true,
        option_mapM_cons]
      cases hd : foreign_declaration env r with
      | none => rfl
      | some d =>
        simp only [Option.map_some']
        refine (ih (h ++ d)).trans ?_
        cases (rs.filter (is_eligible env)).mapM (foreign_declaration env) with
        | none => rfl
        | some ds => simp only [Option.map_some', string_join_cons, String.append_assoc]

/-- The loop over the catalog in `write_prototypes` appends the foreign
declarations of the eligible variants of the catalog, in iteration order. -/
theorem foreign_loop_catalog_eq (env : Env) (fns : FunctionsByIndex) (h : String) :
    fns.foldlM (fun out_h fi =>
        fi.2._remaps.foldlM (fun out_h remap =>
          if remap._extension || (remap._flags &&& env.F_explicit_self != 0) then some out_h
          else write_csharp_pinvoke_declaration env out_h fi.2 remap) out_h) h =
      ((eligible_remaps env fns).mapM (foreign_declaration env)).map
        (fun ds => h ++ String.join ds) := by
  unfold eligible_remaps
  induction fns generalizing h with
  | nil =>
    simp only [List.foldlM_nil, List.flatMap_nil, option_mapM_nil, Option.map_some',
      string_join_nil, String.append_empty]
    rfl
  | cons fi fns ih =>
    rw [List.foldlM_cons, foreign_loop_remaps_eq, List.flatMap_cons, option_mapM_append]
    cases (fi.2._remaps.filter (is_eligible env)).mapM (foreign_declaration env) with
    | none => rfl
    | some ds =>
      simp only [Option.map_some']
      show fns.foldlM _ (h ++ String.join ds) = _
      rw [ih]
      cases (fns.flatMap fun fi => fi.2._remaps.filter (is_eligible env)).mapM
          (foreign_declaration env) with
      | none => rfl
      | some es => simp only [Option.map_some', string_join_append, String.append_assoc]

/-- `write_prototypes` without a header sink writes the export block, the
prototype lines of the eligible variants and a newline, and then what the base
class writes. -/
theorem write_prototypes_none_eq (env : Env) (fns : FunctionsByIndex) (out : String) :
    write_prototypes env fns out none =
      some (out ++ export_block ++
          String.join ((eligible_remaps env fns).map (prototype_line env)) ++ "\n" ++
          (env.base_write_prototypes false).1, none) := by
  unfold write_prototypes
  simp only [write_prototype_for_catalog_eq, Option.isSome_none, Option.map_none']
  rfl

/-- `write_prototypes` with a header sink writes in addition, to the sink, the
opening text, the foreign declarations of the eligible variants and the closing
text; it fails when one of these declarations does. -/
theorem write_prototypes_some_eq (env : Env) (fns : FunctionsByIndex) (out h : String) :
    write_prototypes env fns out (some h) =
      ((eligible_remaps env fns).mapM (foreign_declaration env)).map (fun ds =>
        (out ++ export_block ++
          String.join ((eligible_remaps env fns).map (prototype_line env)) ++ "\n" ++
          (env.base_write_prototypes true).1,
         some (h ++ foreign_opening ++ String.join ds ++ foreign_closing ++
          (env.base_write_prototypes true).2))) := by
  unfold write_prototypes
  simp only [write_prototype_for_catalog_eq, foreign_loop_catalog_eq]
  cases (eligible_remaps env fns).mapM (foreign_declaration env) with
  | none => rfl
  | some ds =>
    simp only [Option.map_some', Option.isSome_some, Option.some.injEq, Prod.mk.injEq,
      foreign_opening, foreign_closing, export_block, String.append_assoc, and_self]

theorem option_mapM_some_of_forall {α β : Type} (f : α → Option β) :
    ∀ (l : List α), (∀ a ∈ l, ∃ b, f a = some b) → ∃ bs, l.mapM f = some bs
  | [], _ => ⟨[], option_mapM_nil f⟩
  | a :: l, h => by
    obtain ⟨b, hb⟩ := h a (by simp)
    obtain ⟨bs, hbs⟩ := option_mapM_some_of_forall f l (fun x hx => h x (by simp [hx]))
    exact ⟨b :: bs, by rw [option_mapM_cons, hb, hbs]; rfl⟩

/-- The mapper returns a name for every present type whose unwrap loop ends on
a node. -/
theorem map_type_to_csharp_some_of_unwrap (env : Env) (t : CPPType) (r : Bool)
    (h : unwrap_loop (.ptr t) ≠ .nullptr) : ∃ s, map_type_to_csharp env (.ptr t) r = some s := by
  cases hm : map_type_to_csharp env (.ptr t) r with
  | some s => exact ⟨s, rfl⟩
  | none => exact absurd ((map_type_to_csharp_eq_none env _ r).mp hm).2 h

/-- A variant has a foreign declaration when the unwrap loop ends on a node for
its return type (unless it returns void) and for every parameter type. -/
theorem foreign_declaration_some (env : Env) (remap : FunctionRemap)
    (hret : remap._void_return = true ∨ unwrap_loop (.ptr remap._return_type) ≠ .nullptr)
    (hpar : ∀ p ∈ remap._parameters, unwrap_loop (.ptr p._remap) ≠ .nullptr) :
    ∃ d, foreign_declaration env remap = some d := by
  have hrt : ∃ rt, foreign_return_type env remap = some rt := by
    unfold foreign_return_type
    split
    · exact ⟨"void", rfl⟩
    · rename_i hv
      exact map_type_to_csharp_some_of_unwrap env _ true (hret.resolve_left hv)
  have hty : ∃ tys, foreign_parameter_types env remap = some tys :=
    option_mapM_some_of_forall _ _
      (fun p hp => map_type_to_csharp_some_of_unwrap env _ false (hpar p hp))
  obtain ⟨rt, hrt⟩ := hrt
  obtain ⟨tys, hty⟩ := hty
  exact ⟨_, by unfold foreign_declaration; rw [hrt, hty]⟩

/-- A run of `write_prototypes` with a header sink completes when every
eligible variant has a foreign declaration. -/
theorem write_prototypes_completes (env : Env) (fns : FunctionsByIndex) (out h : String)
    (hall : ∀ r ∈ eligible_remaps env fns, ∃ d, foreign_declaration env r = some d) :
    ∃ out' h', write_prototypes env fns out (some h) = some (out', some h') := by
  obtain ⟨ds, hds⟩ := option_mapM_some_of_forall _ _ hall
  rw [write_prototypes_some_eq, hds]
  exact ⟨_, _, rfl⟩

/-! ## The emitters: statements of the specification -/

/-- The eligible variants of a catalog are exactly its variants that are
neither marked extension nor carry the explicit-self flag; `write_prototype_for`
writes the prototype lines of the eligible variants of a function, in order,
and nothing for the others; `write_prototypes` writes to the native stream the
prototype lines of the eligible variants of the catalog and, when a header sink
is supplied, to the sink the foreign declarations of the same variants, in the
same order (the run fails when one of these declarations does). -/
theorem eligibility_filter (env : Env) (fns : FunctionsByIndex) (out h : String) :
    (∀ r, r ∈ eligible_remaps env fns ↔
      ∃ fi ∈ fns, r ∈ fi.2._remaps ∧ r._extension = false ∧
        r._flags &&& env.F_explicit_self = 0) ∧
    (∀ func : Function, write_prototype_for env out func =
      out ++ String.join ((func._remaps.filter (is_eligible env)).map (prototype_line env))) ∧
    write_prototypes env fns out none =
      some (out ++ export_block ++
          String.join ((eligible_remaps env fns).map (prototype_line env)) ++ "\n" ++
          (env.base_write_prototypes false).1, none) ∧
    write_prototypes env fns out (some h) =
      ((eligible_remaps env fns).mapM (foreign_declaration env)).map (fun ds =>
        (out ++ export_block ++
          String.join ((eligible_remaps env fns).map (prototype_line env)) ++ "\n" ++
          (env.base_write_prototypes true).1,
         some (h ++ foreign_opening ++ String.join ds ++ foreign_closing ++
          (env.base_write_prototypes true).2))) := by
  refine ⟨fun r => ?_, fun func => write_prototype_for_eq env out func,
    write_prototypes_none_eq env fns out, write_prototypes_some_eq env fns out h⟩
  simp only [eligible_remaps, List.mem_flatMap, List.mem_filter, is_eligible, Bool.and_eq_true,
    Bool.not_eq_true', bne_eq_false_iff_eq]

/-- C6: for an eligible variant that returns a type named `unsigned long long`
and takes one parameter of type `const int&`, the foreign declaration has
return type `ulong` and parameter type `int`, and the native prototype shows
`unsigned long long` and what `output_instance` writes for `const int&`. -/
theorem worked_example (env : Env) (func : Function) (remap : FunctionRemap)
    (out ret_decl int_decl : String)
    (helig : is_eligible env remap = true)
    (hvoid : remap._void_return = false)
    (hret : remap._return_type = .other ret_decl)
    (hpar : remap._parameters =
      [⟨.reference_type (.ptr (.const_type (.ptr (.other int_decl))))⟩])
    (hull : env.get_local_name (.other ret_decl) = "unsigned long long")
    (hint : env.get_local_name (.other int_decl) = "int")
    (hout : ∀ name, env.output_instance
      (.reference_type (.ptr (.const_type (.ptr (.other int_decl))))) name =
        "const int& " ++ name) :
    write_csharp_pinvoke_declaration env out func remap =
      some (out ++
        ("    [DllImport(DllName, CallingConvention = CallingConvention.Cdecl)]\n" ++
          "    internal static extern " ++ "ulong" ++ " " ++ remap._wrapper_name ++ "(" ++
          ("int" ++ " " ++ env.get_parameter_name remap 0) ++ ");\n\n")) ∧
    write_prototype_for env out ⟨[remap]⟩ =
      out ++ ((if env.output_function_names then "EXPORT_FUNC " else "") ++
        ("unsigned long long" ++ " " ++ remap._wrapper_name ++ "(" ++
          ("const int& " ++ env.get_parameter_name remap 0) ++ ")") ++ ";\n") := by
  have hnames : parameter_names env remap = [env.get_parameter_name remap 0] := by
    simp [parameter_names, hpar, List.range_succ]
  constructor
  · rw [write_csharp_pinvoke_declaration_eq]
    have hrt : foreign_return_type env remap = some "ulong" := by
      unfold foreign_return_type
      rw [hvoid, hret]
      simp only [Bool.false_eq_true, if_false, map_type_to_csharp_ptr, unwrap_loop, hull]
      rfl
    have hty : foreign_parameter_types env remap = some ["int"] := by
      unfold foreign_parameter_types
      rw [hpar, option_mapM_cons, option_mapM_nil]
      simp only [map_type_to_csharp_ptr, unwrap_loop, hint]
      rfl
    unfold foreign_declaration
    rw [hrt, hty, hnames]
    simp only [Option.map_some', foreign_declaration_text, List.zipWith_cons_cons,
      List.zipWith_nil_left, intercalate_cons, List.map_nil, string_join_nil,
      String.append_empty]
  · rw [write_prototype_for_eq]
    simp only [List.filter_cons, helig, if_true, List.filter_nil, List.map_cons, List.map_nil,
      string_join_cons, string_join_nil, String.append_empty, prototype_line, native_header,
      native_return_type, native_parameters, hvoid, hret, hull, hpar, hnames,
      List.zipWith_cons_cons, List.zipWith_nil_left, intercalate_cons, hout,
      Bool.false_eq_true, if_false]

theorem worked_example_witness :
    is_eligible sample_env sample_remap = true ∧
    write_csharp_pinvoke_declaration sample_env "" ⟨[sample_remap]⟩ sample_remap =
      some ("    [DllImport(DllName, CallingConvention = CallingConvention.Cdecl)]\n" ++
        "    internal static extern ulong _inCS_f(int param0);\n\n") ∧
    write_prototype_for sample_env "" ⟨[sample_remap]⟩ =
      "EXPORT_FUNC unsigned long long _inCS_f(const int& param0);\n" :=
  have h := worked_example sample_env ⟨[sample_remap]⟩ sample_remap ""
    "unsigned long long" "int" rfl rfl rfl rfl rfl rfl (fun _ => rfl)
  ⟨rfl, h.1, h.2⟩

/-- C8: every name `map_type_to_csharp` returns is in the boundary vocabulary,
and it returns one for every type except a present type whose unwrap loop ends
on `nullptr`; hence every declaration `write_csharp_pinvoke_declaration` writes
has its return type and all its parameter types in the vocabulary. -/
theorem boundary_vocabulary_only (env : Env) :
    (∀ (t : CPPTypePtr) (is_return : Bool) (s : String),
      map_type_to_csharp env t is_return = some s → s ∈ boundary_vocabulary) ∧
    (∀ (t : CPPTypePtr) (is_return : Bool),
      map_type_to_csharp env t is_return = none ↔
        (∃ n, t = .ptr n) ∧ unwrap_loop t = .nullptr) ∧
    (∀ (out : String) (func : Function) (remap : FunctionRemap) (out' : String),
      write_csharp_pinvoke_declaration env out func remap = some out' →
        ∃ (return_type : String) (types : List String),
          return_type ∈ boundary_vocabulary ∧
          (∀ ty ∈ types, ty ∈ boundary_vocabulary) ∧
          types.length = remap._parameters.length ∧
          out' = out ++ foreign_declaration_text return_type remap._wrapper_name types
            (parameter_names env remap)) := by
  refine ⟨map_type_to_csharp_mem_vocabulary env, map_type_to_csharp_eq_none env, ?_⟩
  intro out func remap out' h
  rw [write_csharp_pinvoke_declaration_eq] at h
  unfold foreign_declaration at h
  cases hrt : foreign_return_type env remap with
  | none => rw [hrt] at h; cases h
  | some rt =>
    cases hty : foreign_parameter_types env remap with
    | none => rw [hrt, hty] at h; cases h
    | some tys =>
      rw [hrt, hty] at h
      simp only [Option.map_some', Option.some.injEq] at h
      refine ⟨rt, tys, ?_, ?_, option_mapM_length _ _ _ hty, h.symm⟩
      · unfold foreign_return_type at hrt
        split at hrt
        · cases hrt; decide
        · exact map_type_to_csharp_mem_vocabulary env _ _ _ hrt
      · intro ty hmem
        obtain ⟨p, _, hp⟩ := option_mapM_forall _ _ _ hty ty hmem
        exact map_type_to_csharp_mem_vocabulary env _ _ _ hp

theorem boundary_vocabulary_only_witness :
    map_type_to_csharp sample_env
      (.ptr (.reference_type (.ptr (.const_type (.ptr (.other "int")))))) false = some "int" ∧
    "int" ∈ boundary_vocabulary ∧
    ∃ (return_type : String) (types : List String),
      return_type ∈ boundary_vocabulary ∧ (∀ ty ∈ types, ty ∈ boundary_vocabulary) ∧
      write_csharp_pinvoke_declaration sample_env "" ⟨[sample_remap]⟩ sample_remap =
        some ("" ++ foreign_declaration_text return_type "_inCS_f" types ["param0"]) :=
  have h := boundary_vocabulary_only sample_env
  ⟨rfl, h.1 (.ptr (.reference_type (.ptr (.const_type (.ptr (.other "int")))))) false "int" rfl,
    let ⟨rt, tys, hrt, htys, _, hout⟩ := h.2.2 "" ⟨[sample_remap]⟩ sample_remap _ rfl
    ⟨rt, tys, hrt, htys, congrArg some hout⟩⟩

theorem parameter_names_getElem? (env : Env) (remap : FunctionRemap) (k : Nat)
    (p : Parameter) (h : remap._parameters[k]? = some p) :
    (parameter_names env remap)[k]? = some (env.get_parameter_name remap k) := by
  have hk : k < remap._parameters.length := by
    rcases Nat.lt_or_ge k remap._parameters.length with hlt | hge
    · exact hlt
    · rw [List.getElem?_eq_none hge] at h; cases h
  simp [parameter_names, List.getElem?_range hk]

theorem native_parameters_getElem? (env : Env) (remap : FunctionRemap) (k : Nat)
    (p : Parameter) (h : remap._parameters[k]? = some p) :
    (native_parameters env remap)[k]? =
      some (env.output_instance p._remap (env.get_parameter_name remap k)) := by
  unfold native_parameters
  rw [List.getElem?_zipWith, h, parameter_names_getElem? env remap k p h]

/-- When a header sink is supplied and the run completes, the native
stream holds, after the export block, one prototype line per eligible variant
of the catalog and the sink holds, after the opening text, one foreign
declaration per eligible variant, both in catalog iteration order; the k-th
line and the k-th declaration belong to the k-th eligible variant: they carry
its wrapper name and its generated parameter names, one per parameter, in
order. -/
theorem native_foreign_pairing (env : Env) (fns : FunctionsByIndex) (out h out' h' : String)
    (hrun : write_prototypes env fns out (some h) = some (out', some h')) :
    ∃ natives foreigns : List String,
      out' = out ++ export_block ++ String.join natives ++ "\n" ++
        (env.base_write_prototypes true).1 ∧
      h' = h ++ foreign_opening ++ String.join foreigns ++ foreign_closing ++
        (env.base_write_prototypes true).2 ∧
      natives.length = (eligible_remaps env fns).length ∧
      foreigns.length = (eligible_remaps env fns).length ∧
      ∀ (k : Nat) (r : FunctionRemap), (eligible_remaps env fns)[k]? = some r →
        ∃ (return_type : String) (types : List String),
          types.length = r._parameters.length ∧
          (parameter_names env r).length = r._parameters.length ∧
          natives[k]? = some
            ((if env.output_function_names then "EXPORT_FUNC " else "") ++
              (native_return_type env r ++ " " ++ r._wrapper_name ++ "(" ++
                ", ".intercalate
                  (List.zipWith (fun p name => env.output_instance p._remap name)
                    r._parameters (parameter_names env r)) ++ ")") ++ ";\n") ∧
          foreigns[k]? = some
            ("    [DllImport(DllName, CallingConvention = CallingConvention.Cdecl)]\n" ++
              "    internal static extern " ++ return_type ++ " " ++ r._wrapper_name ++ "(" ++
              ", ".intercalate
                (List.zipWith (fun ty name => ty ++ " " ++ name) types
                  (parameter_names env r)) ++ ");\n\n") := by
  rw [write_prototypes_some_eq] at hrun
  cases hds : (eligible_remaps env fns).mapM (foreign_declaration env) with
  | none => rw [hds] at hrun; cases hrun
  | some ds =>
    rw [hds] at hrun
    simp only [Option.map_some', Option.some.injEq, Prod.mk.injEq] at hrun
    refine ⟨(eligible_remaps env fns).map (prototype_line env), ds, hrun.1.symm,
      hrun.2.symm, List.length_map _ _, option_mapM_length _ _ _ hds, ?_⟩
    intro k r hk
    obtain ⟨d, hd, hfd⟩ := option_mapM_getElem _ _ _ hds k r hk
    unfold foreign_declaration at hfd
    cases hrt : foreign_return_type env r with
    | none => rw [hrt] at hfd; cases hfd
    | some rt =>
      cases hty : foreign_parameter_types env r with
      | none => rw [hrt, hty] at hfd; cases hfd
      | some tys =>
        rw [hrt, hty] at hfd
        simp only [Option.some.injEq] at hfd
        refine ⟨rt, tys, option_mapM_length _ _ _ hty, parameter_names_length env r, ?_, ?_⟩
        · rw [List.getElem?_map, hk]
          rfl
        · rw [hd, ← hfd]
          rfl

theorem native_foreign_pairing_witness :
    ∃ out' h' : String,
      write_prototypes sample_env sample_catalog "" (some "") = some (out', some h') ∧
      ∃ natives foreigns : List String,
        out' = "" ++ export_block ++ String.join natives ++ "\n" ++
          (sample_env.base_write_prototypes true).1 ∧
        h' = "" ++ foreign_opening ++ String.join foreigns ++ foreign_closing ++
          (sample_env.base_write_prototypes true).2 ∧
        natives.length = 3 ∧ foreigns.length = 3 :=
  ⟨_, _, rfl,
    let ⟨natives, foreigns, ho, hh, hn, hf, _⟩ :=
      native_foreign_pairing sample_env sample_catalog "" "" _ _ rfl
    ⟨natives, foreigns, ho, hh, hn, hf⟩⟩

/-- C10: `write_function_header` writes the return type, the separator, the
wrapper name, `(`, the parameter renderings joined by `, ` and `)`; there is
one rendering per parameter, the k-th being what `output_instance` writes for
the type and the generated name of the k-th parameter; joining puts `, `
before every rendering but the first and nothing after the last; without
parameters the header ends in `()`. -/
theorem parameter_list_rendering (env : Env) (out : String) (func : Function)
    (remap : FunctionRemap) (newline : Bool) :
    write_function_header env out func remap newline =
      out ++ (native_return_type env remap ++ (if newline then "\n" else " ") ++
        remap._wrapper_name ++ "(" ++
        ", ".intercalate (native_parameters env remap) ++ ")") ∧
    (native_parameters env remap).length = remap._parameters.length ∧
    (∀ (k : Nat) (p : Parameter), remap._parameters[k]? = some p →
      (native_parameters env remap)[k]? =
        some (env.output_instance p._remap (env.get_parameter_name remap k))) ∧
    ", ".intercalate ([] : List String) = "" ∧
    (∀ (a : String) (l : List String),
      ", ".intercalate (a :: l) = a ++ String.join (l.map (fun b => ", " ++ b))) ∧
    write_function_header env out func { remap with _parameters := [] } newline =
      out ++ (native_return_type env remap ++ (if newline then "\n" else " ") ++
        remap._wrapper_name ++ "()") := by
  refine ⟨write_function_header_eq env out func remap newline, ?_,
    native_parameters_getElem? env remap, rfl, intercalate_cons ", ", ?_⟩
  · simp [native_parameters, parameter_names_length]
  · rw [write_function_header_eq]
    simp only [native_header, native_parameters, List.zipWith_nil_left, String.intercalate,
      native_return_type, String.append_assoc, String.empty_append]
    rfl

theorem parameter_list_rendering_witness :
    write_function_header sample_env "" ⟨[]⟩
        { sample_remap with _parameters := [⟨.other "int"⟩, ⟨.pointer_type (.ptr (.other "char"))⟩,
                                            ⟨.other "double"⟩] } false =
      "unsigned long long _inCS_f(int param0, char* param1, double param2)" ∧
    write_function_header sample_env "" ⟨[]⟩ { sample_remap with _parameters := [] } true =
      "unsigned long long\n_inCS_f()" :=
  ⟨(parameter_list_rendering sample_env "" ⟨[]⟩
      { sample_remap with _parameters := [⟨.other "int"⟩, ⟨.pointer_type (.ptr (.other "char"))⟩,
                                          ⟨.other "double"⟩] } false).1.trans rfl,
   (parameter_list_rendering sample_env "" ⟨[]⟩ sample_remap true).2.2.2.2.2.trans rfl⟩

/-! ## The unwrap loop: termination and invariance -/

/-- With more fuel than leading wrappers the loop is left, at the node
`unwrap_loop` gives, after one stripping pass per leading wrapper. -/
theorem unwrap_run_eq : (t : CPPTypePtr) → (fuel : Nat) → leading_wrappers t < fuel →
    unwrap_run fuel t = some (unwrap_loop t, leading_wrappers t)
  | _, 0, h => absurd h (Nat.not_lt_zero _)
  | .nullptr, _ + 1, _ => rfl
  | .ptr (.pointer_type _), _ + 1, _ => rfl
  | .ptr (.other _), _ + 1, _ => rfl
  | .ptr (.const_type w), fuel + 1, h => by
    have hw : leading_wrappers w < fuel := by
      simp only [leading_wrappers] at h; omega
    simp only [unwrap_run, unwrap_step, unwrap_run_eq w fuel hw, Option.map_some', unwrap_loop,
      leading_wrappers]
  | .ptr (.reference_type w), fuel + 1, h => by
    have hw : leading_wrappers w < fuel := by
      simp only [leading_wrappers] at h; omega
    simp only [unwrap_run, unwrap_step, unwrap_run_eq w fuel hw, Option.map_some', unwrap_loop,
      leading_wrappers]

/-- With no more fuel than leading wrappers the loop is not left yet. -/
theorem unwrap_run_out_of_fuel : (t : CPPTypePtr) → (fuel : Nat) → fuel ≤ leading_wrappers t →
    unwrap_run fuel t = none
  | _, 0, _ => rfl
  | .nullptr, _ + 1, h => by simp [leading_wrappers] at h
  | .ptr (.pointer_type _), _ + 1, h => by simp [leading_wrappers] at h
  | .ptr (.other _), _ + 1, h => by simp [leading_wrappers] at h
  | .ptr (.const_type w), fuel + 1, h => by
    have hw : fuel ≤ leading_wrappers w := by
      simp only [leading_wrappers] at h; omega
    simp only [unwrap_run, unwrap_step, unwrap_run_out_of_fuel w fuel hw, Option.map_none']
  | .ptr (.reference_type w), fuel + 1, h => by
    have hw : fuel ≤ leading_wrappers w := by
      simp only [leading_wrappers] at h; omega
    simp only [unwrap_run, unwrap_step, unwrap_run_out_of_fuel w fuel hw, Option.map_none']

/-- The unwrap loop does not see a stack of qualifier layers. -/
theorem unwrap_loop_apply_qualifiers (qs : List Qualifier) (T : CPPType) :
    unwrap_loop (.ptr (apply_qualifiers qs T)) = unwrap_loop (.ptr T) := by
  induction qs with
  | nil => rfl
  | cons q qs ih =>
    cases q with
    | const_of => simpa only [apply_qualifiers, unwrap_loop] using ih
    | reference_to => simpa only [apply_qualifiers, unwrap_loop] using ih

/-- C16: for every type (a finite nesting of wrappers, so without cycles) and
every fuel above the number of its leading const and reference wrappers, the
unwrap loop of `map_type_to_csharp` is left after exactly that number of
stripping passes, and not earlier; the node it is left at is the one
`map_type_to_csharp` goes on with, and it is absent or a node that is neither a
const wrapper nor a reference wrapper. -/
theorem unwrap_terminates (t : CPPTypePtr) (fuel : Nat) (h : leading_wrappers t < fuel) :
    unwrap_run fuel t = some (unwrap_loop t, leading_wrappers t) ∧
    unwrap_run (leading_wrappers t) t = none ∧
    (unwrap_loop t = .nullptr ∨
      ∃ u, unwrap_loop t = .ptr u ∧ (∀ w, u ≠ .const_type w) ∧ (∀ p, u ≠ .reference_type p)) := by
  refine ⟨unwrap_run_eq t fuel h, unwrap_run_out_of_fuel t _ (Nat.le_refl _), ?_⟩
  cases hu : unwrap_loop t with
  | nullptr => exact Or.inl rfl
  | ptr u =>
    refine Or.inr ⟨u, rfl, ?_, ?_⟩
    · intro w hw
      rcases unwrap_loop_stops t u hu with ⟨q, hq⟩ | ⟨d, hd⟩
      · rw [hq] at hw; cases hw
      · rw [hd] at hw; cases hw
    · intro p hp
      rcases unwrap_loop_stops t u hu with ⟨q, hq⟩ | ⟨d, hd⟩
      · rw [hq] at hp; cases hp
      · rw [hd] at hp; cases hp

theorem unwrap_terminates_witness :
    leading_wrappers (.ptr (.reference_type (.ptr (.const_type (.ptr (.other "int")))))) < 3 ∧
    unwrap_run 3 (.ptr (.reference_type (.ptr (.const_type (.ptr (.other "int")))))) =
      some (.ptr (.other "int"), 2) ∧
    unwrap_run 2 (.ptr (.reference_type (.ptr (.const_type (.ptr (.other "int")))))) = none :=
  have h := unwrap_terminates
    (.ptr (.reference_type (.ptr (.const_type (.ptr (.other "int")))))) 3 (by decide)
  ⟨by decide, h.1, h.2.1⟩

/-- C17: for every present type `T` and every stack of const and reference
layers around it, in any order and of any depth, `map_type_to_csharp` returns
on the wrapped type what it returns on `T`; in particular it returns `IntPtr`
on a reference to a const pointer to anything, and on any other stack of
layers around a pointer. -/
theorem qualifier_stack_invariance (env : Env) (qs : List Qualifier) (T : CPPType)
    (is_return : Bool) :
    map_type_to_csharp env (.ptr (apply_qualifiers qs T)) is_return =
      map_type_to_csharp env (.ptr T) is_return ∧
    (∀ pointee : CPPTypePtr,
      map_type_to_csharp env
        (.ptr (.reference_type (.ptr (.const_type (.ptr (.pointer_type pointee)))))) is_return =
          some "IntPtr" ∧
      map_type_to_csharp env (.ptr (apply_qualifiers qs (.pointer_type pointee))) is_return =
        some "IntPtr") := by
  refine ⟨?_, fun pointee => ⟨?_, ?_⟩⟩
  · rw [map_type_to_csharp_ptr, map_type_to_csharp_ptr, unwrap_loop_apply_qualifiers]
  · simp only [map_type_to_csharp_ptr, unwrap_loop]
  · rw [map_type_to_csharp_ptr, unwrap_loop_apply_qualifiers]
    simp only [unwrap_loop]

/-- C18: `map_type_to_csharp` returns the same on every type whether called
with `is_return` true or false; so the return type of a foreign declaration is
mapped as a parameter of that type would be. -/
theorem is_return_has_no_effect (env : Env) (t : CPPTypePtr) :
    map_type_to_csharp env t true = map_type_to_csharp env t false ∧
    (∀ remap : FunctionRemap, remap._void_return = false →
      foreign_return_type env remap = map_type_to_csharp env (.ptr remap._return_type) false) := by
  refine ⟨rfl, fun remap hv => ?_⟩
  unfold foreign_return_type
  rw [hv]
  rfl

theorem is_return_has_no_effect_witness :
    map_type_to_csharp sample_env (.ptr (.other "unsigned long long")) true =
      map_type_to_csharp sample_env (.ptr (.other "unsigned long long")) false ∧
    foreign_return_type sample_env sample_remap =
      map_type_to_csharp sample_env (.ptr sample_remap._return_type) false :=
  have h := is_return_has_no_effect sample_env (.ptr (.other "unsigned long long"))
  ⟨h.1, h.2 sample_remap rfl⟩

/-! ## The function definitions -/

/-- `write_function_instance` writes nothing for a variant that is not
eligible and appends the definition of an eligible one. -/
theorem write_function_instance_eq (env : Env) (out : String) (func : Function)
    (remap : FunctionRemap) :
    write_function_instance env out func remap =
      if is_eligible env remap then out ++ function_definition env remap else out := by
  unfold write_function_instance
  rw [is_eligible_eq]
  cases he : is_eligible env remap
  · simp
  · simp only [Bool.not_true, Bool.false_eq_true, if_false, if_true, write_function_header_eq,
      function_definition, function_comment, linkage_marker, body_before_return,
      return_statement, managed_return_expression]
    by_cases hexpr : (env.manage_return_value remap (env.call_function remap "param0").2).2 = ""
    · cases env.output_function_names <;> cases env.generate_spam <;>
        simp [hexpr, String.append_assoc]
    · cases env.output_function_names <;> cases env.generate_spam <;>
        simp [hexpr, String.append_assoc]

/-- The loop of `write_function_for` appends the definitions of the eligible
variants, in order. -/
theorem write_function_for_eq (env : Env) (out : String) (func : Function) :
    write_function_for env out func =
      out ++ String.join
        ((func._remaps.filter (is_eligible env)).map (function_definition env)) := by
  unfold write_function_for
  generalize func._remaps = remaps
  induction remaps generalizing out with
  | nil => simp [string_join_nil]
  | cons r rs ih =>
    rw [List.foldl_cons, ih, write_function_instance_eq]
    cases he : is_eligible env r
    · simp [List.filter_cons, he]
    · simp [List.filter_cons, he, string_join_cons, String.append_assoc]

/-- `write_functions` appends the definitions of the eligible variants of the
catalog, in iteration order, and then what the base class writes. -/
theorem write_functions_eq (env : Env) (fns : FunctionsByIndex) (out : String) :
    write_functions env fns out =
      out ++ String.join ((eligible_remaps env fns).map (function_definition env)) ++
        env.base_write_functions := by
  unfold write_functions
  simp only []
  congr 1
  unfold eligible_remaps
  induction fns generalizing out with
  | nil => simp [string_join_nil]
  | cons fi fns ih =>
    rw [List.foldl_cons, ih, write_function_for_eq]
    simp [string_join_append, String.append_assoc]

/-- The eligible variants are a sublist of all variants of the catalog. -/
theorem eligible_remaps_sublist (env : Env) (fns : FunctionsByIndex) :
    (eligible_remaps env fns).Sublist (all_remaps fns) := by
  unfold eligible_remaps all_remaps
  induction fns with
  | nil => exact List.Sublist.refl _
  | cons fi fns ih =>
    rw [List.flatMap_cons, List.flatMap_cons]
    exact List.Sublist.append (List.filter_sublist _) ih

/-! ## The emitters: prototypes, declarations and definitions -/

/-- C11, as stated, fails: with `output_function_names` false the prototype
line of the worked example is written without the export qualifier, so it does
not begin with `EXPORT_FUNC`. -/
theorem prototype_line_without_export_qualifier :
    write_prototype_for { sample_env with output_function_names := false } ""
        ⟨[sample_remap]⟩ =
      "unsigned long long _inCS_f(const int& param0);\n" ∧
    ¬ ∃ rest : String,
      write_prototype_for { sample_env with output_function_names := false } ""
        ⟨[sample_remap]⟩ = "EXPORT_FUNC " ++ rest := by
  have h : write_prototype_for { sample_env with output_function_names := false } ""
      ⟨[sample_remap]⟩ = "unsigned long long _inCS_f(const int& param0);\n" := by decide
  refine ⟨h, ?_⟩
  rintro ⟨rest, hrest⟩
  rw [h] at hrest
  have hd := congrArg (fun s : String => s.data.head?) hrest
  simp only [String.data_append] at hd
  exact absurd hd (by simp)

/-- C11, amended: `write_prototype_for` writes exactly one line per eligible
variant of the function, in order, of the form return type or `void`, wrapper
name and parameter list followed by `;`; the line begins with the export
qualifier `EXPORT_FUNC` when `output_function_names` is true and carries no
qualifier when it is false. -/
theorem prototype_line_export_qualifier (env : Env) (out : String) (func : Function) :
    write_prototype_for env out func =
      out ++ String.join ((func._remaps.filter (is_eligible env)).map (prototype_line env)) ∧
    ((func._remaps.filter (is_eligible env)).map (prototype_line env)).length =
      (func._remaps.filter (is_eligible env)).length ∧
    (∀ remap : FunctionRemap, env.output_function_names = true →
      prototype_line env remap =
        "EXPORT_FUNC " ++ (native_return_type env remap ++ " " ++ remap._wrapper_name ++ "(" ++
          ", ".intercalate (native_parameters env remap) ++ ")" ++ ";\n")) ∧
    (∀ remap : FunctionRemap, env.output_function_names = false →
      prototype_line env remap =
        native_return_type env remap ++ " " ++ remap._wrapper_name ++ "(" ++
          ", ".intercalate (native_parameters env remap) ++ ")" ++ ";\n") := by
  refine ⟨write_prototype_for_eq env out func, List.length_map _ _, ?_, ?_⟩
  · intro remap h
    simp only [prototype_line, native_header, h, if_true, Bool.false_eq_true, if_false,
      String.append_assoc]
  · intro remap h
    simp only [prototype_line, native_header, h, Bool.false_eq_true, if_false,
      String.append_assoc, String.empty_append]

theorem prototype_line_export_qualifier_witness :
    prototype_line sample_env sample_remap =
      "EXPORT_FUNC unsigned long long _inCS_f(const int& param0);\n" ∧
    prototype_line { sample_env with output_function_names := false } sample_remap =
      "unsigned long long _inCS_f(const int& param0);\n" :=
  ⟨((prototype_line_export_qualifier sample_env "" ⟨[]⟩).2.2.1 sample_remap rfl).trans
      (by decide),
   ((prototype_line_export_qualifier { sample_env with output_function_names := false } ""
      ⟨[]⟩).2.2.2 sample_remap rfl).trans (by decide)⟩

/-- C12: `write_csharp_pinvoke_declaration` writes the attribute line and then
`internal static extern`, the return type, the wrapper name and the parameter
list closed by `);`, where the return type is `void` when the void-return flag
is set and otherwise what `map_type_to_csharp` returns on the return type, and
the k-th parameter is what `map_type_to_csharp` returns on the type of the k-th
parameter, a blank and its generated name, the parameters joined by `, `; the
declaration is written whenever these calls of `map_type_to_csharp` return. -/
theorem foreign_declaration_types (env : Env) (out : String) (func : Function)
    (remap : FunctionRemap) :
    write_csharp_pinvoke_declaration env out func remap =
      (match (if remap._void_return then some "void"
            else map_type_to_csharp env (.ptr remap._return_type) true),
          remap._parameters.mapM (fun p => map_type_to_csharp env (.ptr p._remap) false) with
        | some return_type, some types =>
          some (out ++
            ("    [DllImport(DllName, CallingConvention = CallingConvention.Cdecl)]\n" ++
              "    internal static extern " ++ return_type ++ " " ++ remap._wrapper_name ++
              "(" ++
              ", ".intercalate
                (List.zipWith (fun ty name => ty ++ " " ++ name) types
                  (parameter_names env remap)) ++ ");\n\n"))
        | _, _ => none) ∧
    (∀ types : List String,
      remap._parameters.mapM (fun p => map_type_to_csharp env (.ptr p._remap) false) =
          some types →
        types.length = remap._parameters.length ∧
        ∀ (k : Nat) (p : Parameter), remap._parameters[k]? = some p →
          ∃ ty, map_type_to_csharp env (.ptr p._remap) false = some ty ∧
            types[k]? = some ty ∧
            (List.zipWith (fun ty name => ty ++ " " ++ name) types
              (parameter_names env remap))[k]? =
                some (ty ++ " " ++ env.get_parameter_name remap k)) := by
  constructor
  · rw [write_csharp_pinvoke_declaration_eq]
    unfold foreign_declaration foreign_return_type foreign_parameter_types
      foreign_declaration_text
    cases (if remap._void_return then some "void"
        else map_type_to_csharp env (.ptr remap._return_type) true) with
    | none => rfl
    | some rt =>
      cases remap._parameters.mapM (fun p => map_type_to_csharp env (.ptr p._remap) false) with
      | none => rfl
      | some tys => rfl
  · intro types htypes
    refine ⟨option_mapM_length _ _ _ htypes, fun k p hk => ?_⟩
    obtain ⟨ty, hty, hmap⟩ := option_mapM_getElem _ _ _ htypes k p hk
    refine ⟨ty, hmap, hty, ?_⟩
    rw [List.getElem?_zipWith, hty, parameter_names_getElem? env remap k p hk]

theorem foreign_declaration_types_witness :
    write_csharp_pinvoke_declaration sample_env "" ⟨[sample_remap]⟩ sample_remap =
      some ("    [DllImport(DllName, CallingConvention = CallingConvention.Cdecl)]\n" ++
        "    internal static extern ulong _inCS_f(int param0);\n\n") ∧
    ∃ ty, map_type_to_csharp sample_env (.ptr
        (.reference_type (.ptr (.const_type (.ptr (.other "int")))))) false = some ty ∧
      ["int"][0]? = some ty :=
  have h := foreign_declaration_types sample_env "" ⟨[sample_remap]⟩ sample_remap
  ⟨h.1.trans (by decide),
    let ⟨ty, hm, ht, _⟩ := (h.2 ["int"] rfl).2 0
      ⟨.reference_type (.ptr (.const_type (.ptr (.other "int"))))⟩ rfl
    ⟨ty, hm, ht⟩⟩

/-- C13: when the wrapper names of all variants of the catalog are pairwise
distinct, so are the wrapper names of the variants `write_prototypes` emits:
the native prototype lines and the foreign declarations are written for one
and the same list of variants, whose wrapper names are pairwise distinct. -/
theorem wrapper_names_unique (env : Env) (fns : FunctionsByIndex) (out h : String)
    (hunique : ((all_remaps fns).map (fun r => r._wrapper_name)).Nodup) :
    ∃ emitted : List FunctionRemap,
      (emitted.map (fun r => r._wrapper_name)).Nodup ∧
      write_prototypes env fns out none =
        some (out ++ export_block ++ String.join (emitted.map (prototype_line env)) ++ "\n" ++
          (env.base_write_prototypes false).1, none) ∧
      write_prototypes env fns out (some h) =
        (emitted.mapM (foreign_declaration env)).map (fun ds =>
          (out ++ export_block ++ String.join (emitted.map (prototype_line env)) ++ "\n" ++
            (env.base_write_prototypes true).1,
           some (h ++ foreign_opening ++ String.join ds ++ foreign_closing ++
            (env.base_write_prototypes true).2))) ∧
      (∀ r ∈ emitted, ∃ return_type : String,
        prototype_line env r =
          (if env.output_function_names then "EXPORT_FUNC " else "") ++
            (return_type ++ " " ++ r._wrapper_name ++ "(" ++
              ", ".intercalate (native_parameters env r) ++ ")") ++ ";\n") ∧
      (∀ r ∈ emitted, ∀ d, foreign_declaration env r = some d →
        ∃ (return_type : String) (types : List String),
          d = foreign_declaration_text return_type r._wrapper_name types
            (parameter_names env r)) := by
  refine ⟨eligible_remaps env fns,
    List.Nodup.sublist ((eligible_remaps_sublist env fns).map _) hunique,
    write_prototypes_none_eq env fns out, write_prototypes_some_eq env fns out h, ?_, ?_⟩
  · intro r _
    exact ⟨native_return_type env r, rfl⟩
  · intro r _ d hd
    unfold foreign_declaration at hd
    cases hrt : foreign_return_type env r with
    | none => rw [hrt] at hd; cases hd
    | some rt =>
      cases hty : foreign_parameter_types env r with
      | none => rw [hrt, hty] at hd; cases hd
      | some tys =>
        rw [hrt, hty] at hd
        simp only [Option.some.injEq] at hd
        exact ⟨rt, tys, hd.symm⟩

theorem wrapper_names_unique_witness :
    ((all_remaps sample_catalog).map (fun r => r._wrapper_name)).Nodup ∧
    ∃ emitted : List FunctionRemap,
      (emitted.map (fun r => r._wrapper_name)).Nodup ∧
      write_prototypes sample_env sample_catalog "" none =
        some ("" ++ export_block ++ String.join (emitted.map (prototype_line sample_env)) ++
          "\n" ++ (sample_env.base_write_prototypes false).1, none) :=
  ⟨by decide,
    let ⟨emitted, hn, hnone, _⟩ :=
      wrapper_names_unique sample_env sample_catalog "" "" (by decide)
    ⟨emitted, hn, hnone⟩⟩

/-- C14: for an eligible variant, let the managed expression be what
`manage_return_value` returns on the expression `call_function` returned for
the call target `param0`.  When it is non-empty `write_function_instance`
writes, after the text of the body so far, the line `  return <expr>;` with
exactly that expression, and then the closing brace; when it is empty the
closing brace follows the body directly and no return statement is written. -/
theorem conditional_return_statement (env : Env) (out : String) (func : Function)
    (remap : FunctionRemap) (helig : is_eligible env remap = true) :
    managed_return_expression env remap =
      (env.manage_return_value remap (env.call_function remap "param0").2).2 ∧
    (managed_return_expression env remap ≠ "" →
      write_function_instance env out func remap =
        out ++ (function_comment env remap ++ linkage_marker env ++
          native_header env remap true ++ " \x7b\n" ++ body_before_return env remap ++
          ("  return " ++ managed_return_expression env remap ++ ";\n") ++ "\x7d\n\n")) ∧
    (managed_return_expression env remap = "" →
      write_function_instance env out func remap =
        out ++ (function_comment env remap ++ linkage_marker env ++
          native_header env remap true ++ " \x7b\n" ++ body_before_return env remap ++
          "\x7d\n\n")) := by
  refine ⟨rfl, fun hne => ?_, fun hempty => ?_⟩
  · rw [write_function_instance_eq, helig]
    simp only [if_true, function_definition, return_statement, hne, if_false]
  · rw [write_function_instance_eq, helig]
    simp only [if_true, function_definition, return_statement, hempty, String.append_empty]

theorem conditional_return_statement_witness :
    is_eligible sample_env sample_remap = true ∧
    managed_return_expression sample_env sample_remap = "(param0)._inCS_f()" ∧
    write_function_instance sample_env "" ⟨[sample_remap]⟩ sample_remap =
      "/*\n * C# wrapper for\n * _inCS_f\n */\n" ++
      "unsigned long long\n_inCS_f(const int& param0) \x7b\n" ++
      "  return (param0)._inCS_f();\n" ++ "\x7d\n\n" ∧
    write_function_instance { sample_env with manage_return_value := fun _ _ => ("", "") } ""
        ⟨[sample_remap]⟩ sample_remap =
      "/*\n * C# wrapper for\n * _inCS_f\n */\n" ++
      "unsigned long long\n_inCS_f(const int& param0) \x7b\n" ++ "\x7d\n\n" :=
  ⟨rfl, rfl,
   ((conditional_return_statement sample_env "" ⟨[sample_remap]⟩ sample_remap rfl).2.1
      (by decide)).trans (by decide),
   ((conditional_return_statement { sample_env with manage_return_value := fun _ _ => ("", "") }
      "" ⟨[sample_remap]⟩ sample_remap rfl).2.2 rfl).trans (by decide)⟩

/-- C15: for an eligible variant, when `output_function_names` is false the
definition `write_function_instance` writes has `static ` between the comment
and the header; when it is true the header follows the comment directly, and
the prototype `write_prototype_for` writes for the variant begins with the
export qualifier `EXPORT_FUNC`. -/
theorem linkage_toggle (env : Env) (out : String) (func : Function) (remap : FunctionRemap)
    (helig : is_eligible env remap = true) :
    (env.output_function_names = false →
      write_function_instance env out func remap =
        out ++ (function_comment env remap ++ "static " ++ native_header env remap true ++
          " \x7b\n" ++ body_before_return env remap ++ return_statement env remap ++
          "\x7d\n\n")) ∧
    (env.output_function_names = true →
      write_function_instance env out func remap =
        out ++ (function_comment env remap ++ native_header env remap true ++
          " \x7b\n" ++ body_before_return env remap ++ return_statement env remap ++
          "\x7d\n\n") ∧
      write_prototype_for env out ⟨[remap]⟩ =
        out ++ ("EXPORT_FUNC " ++ native_header env remap false ++ ";\n")) := by
  refine ⟨fun hfalse => ?_, fun htrue => ⟨?_, ?_⟩⟩
  · rw [write_function_instance_eq, helig]
    simp only [if_true, function_definition, linkage_marker, hfalse, Bool.false_eq_true,
      if_false]
  · rw [write_function_instance_eq, helig]
    simp only [if_true, function_definition, linkage_marker, htrue, String.append_empty]
  · rw [write_prototype_for_eq]
    simp only [List.filter_cons, helig, if_true, List.filter_nil, List.map_cons, List.map_nil,
      string_join_cons, string_join_nil, String.append_empty, prototype_line, htrue]

theorem linkage_toggle_witness :
    is_eligible sample_env sample_remap = true ∧
    write_function_instance { sample_env with output_function_names := false } ""
        ⟨[sample_remap]⟩ sample_remap =
      "/*\n * C# wrapper for\n * _inCS_f\n */\n" ++
      "static unsigned long long\n_inCS_f(const int& param0) \x7b\n" ++
      "  return (param0)._inCS_f();\n" ++ "\x7d\n\n" ∧
    write_function_instance sample_env "" ⟨[sample_remap]⟩ sample_remap =
      "/*\n * C# wrapper for\n * _inCS_f\n */\n" ++
      "unsigned long long\n_inCS_f(const int& param0) \x7b\n" ++
      "  return (param0)._inCS_f();\n" ++ "\x7d\n\n" ∧
    write_prototype_for sample_env "" ⟨[sample_remap]⟩ =
      "EXPORT_FUNC unsigned long long _inCS_f(const int& param0);\n" :=
  have hs := linkage_toggle { sample_env with output_function_names := false } ""
    ⟨[sample_remap]⟩ sample_remap rfl
  have he := linkage_toggle sample_env "" ⟨[sample_remap]⟩ sample_remap rfl
  ⟨rfl, (hs.1 rfl).trans (by decide), ((he.2 rfl).1).trans (by decide),
    ((he.2 rfl).2).trans (by decide)⟩

/-- C19: the header `write_function_header` writes with `newline` true is the
one it writes with `newline` false with the blank between the return type and
the wrapper name replaced by a line break; `write_functions` writes the
definitions of the eligible variants of the catalog in iteration order and
`write_prototypes` the prototype lines of the same variants in the same order;
the definition and the prototype line of a variant hold the same return type,
wrapper name and parameter list. -/
theorem headers_agree (env : Env) (fns : FunctionsByIndex) (out : String) (func : Function)
    (remap : FunctionRemap) :
    write_function_header env out func remap false =
      out ++ native_return_type env remap ++ " " ++
        (remap._wrapper_name ++ "(" ++ ", ".intercalate (native_parameters env remap) ++ ")") ∧
    write_function_header env out func remap true =
      out ++ native_return_type env remap ++ "\n" ++
        (remap._wrapper_name ++ "(" ++ ", ".intercalate (native_parameters env remap) ++ ")") ∧
    write_functions env fns out =
      out ++ String.join ((eligible_remaps env fns).map (function_definition env)) ++
        env.base_write_functions ∧
    write_prototypes env fns out none =
      some (out ++ export_block ++
          String.join ((eligible_remaps env fns).map (prototype_line env)) ++ "\n" ++
          (env.base_write_prototypes false).1, none) ∧
    (∀ r : FunctionRemap,
      function_definition env r =
        function_comment env r ++ linkage_marker env ++
          (native_return_type env r ++ "\n" ++
            (r._wrapper_name ++ "(" ++ ", ".intercalate (native_parameters env r) ++ ")")) ++
          " \x7b\n" ++ body_before_return env r ++ return_statement env r ++ "\x7d\n\n" ∧
      prototype_line env r =
        (if env.output_function_names then "EXPORT_FUNC " else "") ++
          (native_return_type env r ++ " " ++
            (r._wrapper_name ++ "(" ++ ", ".intercalate (native_parameters env r) ++ ")")) ++
          ";\n") := by
  refine ⟨?_, ?_, write_functions_eq env fns out, write_prototypes_none_eq env fns out,
    fun r => ⟨?_, ?_⟩⟩
  · rw [write_function_header_eq]
    simp only [native_header, Bool.false_eq_true, if_false, String.append_assoc]
  · rw [write_function_header_eq]
    simp only [native_header, if_true, String.append_assoc]
  · simp only [function_definition, native_header, if_true, String.append_assoc]
  · simp only [prototype_line, native_header, Bool.false_eq_true, if_false,
      String.append_assoc]

/-! ## Runs that fail in a foreign declaration -/

end Interrogate
